import Mathlib

/-!
Verification of the fetch/cache/region-resolution core of OWAPI
(src/owapi/interface.py) against its specification.

The embedding models each Python function as a Lean function that takes
an environment (the HTTP transport and the JSON decoder, both
deterministic oracles), the current time, and the cache store, and
returns its result together with the list of observable actions (events)
it performed and the updated cache.  Python exceptions are modelled with
`Except PyExc`.  Python `str.format` on the URL template constants is
modelled by a template parser plus renderer (`pyFormat`); `str.replace`
on the single-character pattern used by the source is modelled by a
character map (`replaceHash`).
-/

/-- Python exceptions that the modelled code can raise. -/
inductive PyExc where
  | valueError (msg : String)
  | typeError (msg : String)
  | keyError (key : String)
  | jsonDecodeError
  deriving DecidableEq

/-- One piece of a Python format template: a literal or a named field. -/
inductive FmtPart where
  | lit (s : String)
  | field (name : String)
  deriving DecidableEq

/-- Close the pending run of literal characters, if non-empty. -/
def flushLit (litAcc : List Char) (ps : List FmtPart) : List FmtPart :=
  if litAcc.isEmpty then ps else FmtPart.lit (String.mk litAcc.reverse) :: ps

/-- Template scanner for `str.format`: runs of literal characters become
`lit` parts, a brace-delimited name becomes a `field` part.  The first
argument accumulates the current literal run (reversed); the second is
`none` outside a field and `some acc` while scanning a field name. -/
def parseFmtAux : List Char → Option (List Char) → List Char → List FmtPart
  | litAcc, none, [] => flushLit litAcc []
  | litAcc, none, c :: rest =>
    if c = '{' then flushLit litAcc (parseFmtAux [] (some []) rest)
    else parseFmtAux (c :: litAcc) none rest
  | litAcc, some nameAcc, [] => flushLit litAcc [FmtPart.field (String.mk nameAcc.reverse)]
  | litAcc, some nameAcc, c :: rest =>
    if c = '}' then
      flushLit litAcc (FmtPart.field (String.mk nameAcc.reverse) :: parseFmtAux [] none rest)
    else parseFmtAux litAcc (some (c :: nameAcc)) rest

/-- Parse a Python format template into its parts. -/
def parseFmt (s : String) : List FmtPart := parseFmtAux [] none s.toList

/-- Keyword-argument lookup, first match wins. -/
def lookupKw : List (String × String) → String → Option String
  | [], _ => none
  | (k, v) :: rest, n => if k = n then some v else lookupKw rest n

/-- Render a parsed template against keyword arguments.  A field whose
name is not among the keyword arguments raises `KeyError`, as Python
`str.format` does; keyword arguments not mentioned by the template are
silently ignored, as Python `str.format` does. -/
def renderFmt : List FmtPart → List (String × String) → Except PyExc String
  | [], _ => Except.ok ""
  | FmtPart.lit s :: ps, kw =>
    match renderFmt ps kw with
    | Except.ok rest => Except.ok (s ++ rest)
    | Except.error e => Except.error e
  | FmtPart.field n :: ps, kw =>
    match lookupKw kw n with
    | none => Except.error (PyExc.keyError n)
    | some v =>
      match renderFmt ps kw with
      | Except.ok rest => Except.ok (v ++ rest)
      | Except.error e => Except.error e

/-- Python `template.format(k1=v1, ...)` for the templates of the source. -/
def pyFormat (tmpl : String) (kwargs : List (String × String)) : Except PyExc String :=
  renderFmt (parseFmt tmpl) kwargs

/-- Python `s.replace("#", "-")`: with a single-character pattern this is
a character-by-character map. -/
def replaceHash (s : String) : String :=
  String.mk (s.toList.map fun ch => if ch = '#' then '-' else ch)

/-- `B_BASE_URL` from the source. -/
def B_BASE_URL : String := "https://playoverwatch.com/en-gb/"

/-- `B_PAGE_URL` from the source. -/
def B_PAGE_URL : String := B_BASE_URL ++ "career/pc/{region}/{btag}"

/-- `MO_BASE_URL` from the source. -/
def MO_BASE_URL : String := "https://masteroverwatch.com/"

/-- `MO_PROFILE_URL` from the source. -/
def MO_PROFILE_URL : String := MO_BASE_URL ++ "profile/pc/"

/-- `MO_PAGE_URL` from the source. -/
def MO_PAGE_URL : String := MO_PROFILE_URL ++ "{region}/{btag}"

/-- `MO_UPDATE_URL` from the source. -/
def MO_UPDATE_URL : String := MO_PAGE_URL ++ "/update"

/-- JSON values, as produced by `json.loads`. -/
inductive Json where
  | null
  | bool (b : Bool)
  | num (n : Int)
  | str (s : String)
  | arr (elems : List Json)
  | obj (fields : List (String × Json))

/-- Dictionary key lookup, first match wins. -/
def lookupField : List (String × Json) → String → Option Json
  | [], _ => none
  | (k, v) :: rest, n => if k = n then some v else lookupField rest n

/-- Python subscription `data[k]` with a string key: on a JSON object the
field is looked up (`KeyError` when absent); every other value raises
`TypeError`, as Python does for `data["k"]` on non-dict values. -/
def Json.getItem : Json → String → Except PyExc Json
  | Json.obj fields, k =>
    match lookupField fields k with
    | some v => Except.ok v
    | none => Except.error (PyExc.keyError k)
  | _, _ => Except.error (PyExc.typeError "value is not subscriptable by a string key")

/-- Python `j == s` comparing a decoded JSON value to a string literal:
true exactly for an equal string; values of any other type compare
unequal to a string. -/
def jsonEqStr (j : Json) (s : String) : Bool :=
  match j with
  | Json.str t => t == s
  | _ => false

/-- The apostrophe character, as a string. -/
def apostrophe : String := String.singleton (Char.ofNat 39)

/-- The exact not-found message matched by `update_user`. -/
def moNotFoundMessage : String :=
  "We couldn" ++ apostrophe ++ "t find a player with that name."

/-- Observable actions of a run. -/
inductive Event where
  | fetchBody (url : String) (cacheTime : Nat)
  | netGet (url : String)
  | parseAttempt (body : Option String)
  | probe (btag reg : String)
  | updateReq (btag reg : String)
  | profileReq (btag reg extra : String)
  deriving DecidableEq

/-- The deterministic external world: the HTTP transport (`fetch url`
is `some body` exactly when the GET returns status 200 with that body,
`none` on any non-200 status or transport failure) and the JSON decoder
(`loads s` is `none` exactly when `s` is not valid JSON). -/
structure Env where
  fetch : String → Option String
  loads : String → Option Json

/-- The shared cache store: url, body, absolute expiry time. -/
abbrev Cache := List (String × String × Nat)

/-- Cache lookup at time `now`: the newest entry for the url wins, and an
entry is visible only strictly before its expiry time. -/
def cacheGet : Cache → String → Nat → Option String
  | [], _, _ => none
  | (u, b, e) :: rest, url, now =>
    if u = url then (if now < e then some b else none) else cacheGet rest url now

/-- Cache store: prepend, so newer entries shadow older ones. -/
def cachePut (c : Cache) (url body : String) (expiresAt : Nat) : Cache :=
  (url, body, expiresAt) :: c

/-- Modelled from the spec: `owapi.util.with_cache` (owapi/util.py is not
under src/; behaviour per spec section 4.1).  Look the url up in the
cache; a live entry is returned with no network call.  Otherwise perform
the GET: on success store the body with expiry `now + expires` and
return it; on failure return absent without populating the cache. -/
def with_cache (env : Env) (now : Nat) (c : Cache) (url : String) (expires : Nat) :
    Option String × List Event × Cache :=
  match cacheGet c url now with
  | some body => (some body, [], c)
  | none =>
    match env.fetch url with
    | none => (none, [Event.netGet url], c)
    | some body => (some body, [Event.netGet url], cachePut c url body (now + expires))

/-- `get_page_body` from the source: delegates to `with_cache` with the
given `cache_time` (the source default, 300, is written explicitly at
call sites that omit the argument). -/
def get_page_body (env : Env) (now : Nat) (c : Cache) (url : String) (cache_time : Nat) :
    Option String × List Event × Cache :=
  let r := with_cache env now c url cache_time
  (r.1, Event.fetchBody url cache_time :: r.2.1, r.2.2)

/-- A parsed HTML document (`etree._Element`); only its identity with the
body it was parsed from matters to the claims. -/
structure Document where
  content : String
  deriving DecidableEq

/-- `_parse_page` from the source.  The argument is the possibly absent
page body its call sites pass in: `etree.HTML` on an actual string always
yields a tree (permissive parsing), while `etree.HTML(None)` raises
`ValueError`. -/
def _parse_page : Option String → Except PyExc Document
  | some content => Except.ok (Document.mk content)
  | none => Except.error (PyExc.valueError "can only parse strings")

/-- `get_user_page` from the source: builds the MO page URL with the
dash-normalised battletag plus the `extra` suffix, fetches the body, and
unconditionally hands it to the parser (there is no absence guard in the
source, so an absent body reaches `_parse_page`). -/
def get_user_page (env : Env) (now : Nat) (c : Cache) (battletag region extra : String)
    (cache_time : Nat) : Except PyExc Document × List Event × Cache :=
  match pyFormat MO_PAGE_URL [("region", region), ("btag", replaceHash battletag)] with
  | Except.error e => (Except.error e, [Event.profileReq battletag region extra], c)
  | Except.ok u =>
    let pb := get_page_body env now c (u ++ extra) cache_time
    (_parse_page pb.1,
     Event.profileReq battletag region extra :: pb.2.1 ++ [Event.parseAttempt pb.1],
     pb.2.2)

/-- `get_blizzard_page` from the source: builds the blizzard career URL
with the dash-normalised battletag (the `cache_time=0` keyword is passed
to `format`, whose template has no such field), fetches the body with the
default cache time 300, and parses only when a body is present. -/
def get_blizzard_page (env : Env) (now : Nat) (c : Cache) (battletag region : String) :
    Except PyExc (Option Document) × List Event × Cache :=
  match pyFormat B_PAGE_URL
      [("region", region), ("btag", replaceHash battletag), ("cache_time", "0")] with
  | Except.error e => (Except.error e, [Event.probe battletag region], c)
  | Except.ok built_url =>
    let pb := get_page_body env now c built_url 300
    match pb.1 with
    | some b =>
      match _parse_page (some b) with
      | Except.ok d =>
        (Except.ok (some d),
         Event.probe battletag region :: pb.2.1 ++ [Event.parseAttempt (some b)],
         pb.2.2)
      | Except.error e =>
        (Except.error e,
         Event.probe battletag region :: pb.2.1 ++ [Event.parseAttempt (some b)],
         pb.2.2)
    | none => (Except.ok none, Event.probe battletag region :: pb.2.1, pb.2.2)

/-- The JSON-interpretation part of `update_user` (source lines 94-100):
`json.loads` raises `TypeError` on an absent body and a decode error on
invalid JSON; the decoded value is subscripted at `status` (and, when
that compares equal to the string `error`, at `message`), any exception
of these lookups propagating; the call reports `false` exactly for the
exact not-found message and `true` otherwise. -/
def updateJsonResult (env : Env) (body : Option String) : Except PyExc Bool :=
  match body with
  | none =>
    Except.error (PyExc.typeError "the JSON object must be str, bytes or bytearray, not NoneType")
  | some s =>
    match env.loads s with
    | none => Except.error PyExc.jsonDecodeError
    | some data =>
      match data.getItem "status" with
      | Except.error e => Except.error e
      | Except.ok st =>
        if jsonEqStr st "error" then
          match data.getItem "message" with
          | Except.error e => Except.error e
          | Except.ok m =>
            if jsonEqStr m moNotFoundMessage then Except.ok false else Except.ok true
        else Except.ok true

/-- `update_user` from the source: fetches the update endpoint (note: the
source substitutes the battletag into `MO_UPDATE_URL` without replacing
any hash character) with the default cache time, then interprets the
body per `updateJsonResult`. -/
def update_user (env : Env) (now : Nat) (c : Cache) (battletag reg : String) :
    Except PyExc Bool × List Event × Cache :=
  match pyFormat MO_UPDATE_URL [("btag", battletag), ("region", reg)] with
  | Except.error e => (Except.error e, [Event.updateReq battletag reg], c)
  | Except.ok url =>
    let pb := get_page_body env now c url 300
    (updateJsonResult env pb.1, Event.updateReq battletag reg :: pb.2.1, pb.2.2)

/-- The body of the `for reg in reg_l` loop of `region_helper`, one
recursive step per candidate region; the empty list is the loop-else
branch returning the initial `result = (None, None)`. -/
def region_loop (env : Env) (now : Nat) (battletag extra : String) :
    List String → Cache → Except PyExc (Option Document × Option String) × List Event × Cache
  | [], c => (Except.ok (none, none), [], c)
  | reg :: rest, c =>
    let r1 := get_blizzard_page env now c battletag reg
    match r1.1 with
    | Except.error e => (Except.error e, r1.2.1, r1.2.2)
    | Except.ok none =>
      let r := region_loop env now battletag extra rest r1.2.2
      (r.1, r1.2.1 ++ r.2.1, r.2.2)
    | Except.ok (some _) =>
      let r2 := update_user env now r1.2.2 battletag reg
      match r2.1 with
      | Except.error e => (Except.error e, r1.2.1 ++ r2.2.1, r2.2.2)
      | Except.ok false =>
        let r := region_loop env now battletag extra rest r2.2.2
        (r.1, r1.2.1 ++ r2.2.1 ++ r.2.1, r.2.2)
      | Except.ok true =>
        let r3 := get_user_page env now r2.2.2 battletag reg extra 300
        match r3.1 with
        | Except.error e => (Except.error e, r1.2.1 ++ r2.2.1 ++ r3.2.1, r3.2.2)
        | Except.ok d =>
          (Except.ok (some d, some reg), r1.2.1 ++ r2.2.1 ++ r3.2.1, r3.2.2)

/-- `region_helper` from the source: candidate list `[eu, us, kr]` when no
region is requested, else the single requested region. -/
def region_helper (env : Env) (now : Nat) (c : Cache) (battletag : String)
    (region : Option String) (extra : String) :
    Except PyExc (Option Document × Option String) × List Event × Cache :=
  let reg_l := match region with
    | none => ["eu", "us", "kr"]
    | some r => [r]
  region_loop env now battletag extra reg_l c

/-- The region of a probe event. -/
def regOfProbe : Event → Option String
  | Event.probe _ r => some r
  | _ => none

/-- The region of an update-request event. -/
def regOfUpdate : Event → Option String
  | Event.updateReq _ r => some r
  | _ => none

/-- The region of a profile-request event. -/
def regOfProfile : Event → Option String
  | Event.profileReq _ r _ => some r
  | _ => none

/-- The regions, in order, for which an existence probe was issued. -/
def probeRegs (tr : List Event) : List String := tr.filterMap regOfProbe

/-- The regions, in order, for which an update call was issued. -/
def updateRegs (tr : List Event) : List String := tr.filterMap regOfUpdate

/-- The regions, in order, for which a full-profile fetch was issued. -/
def profileRegs (tr : List Event) : List String := tr.filterMap regOfProfile

/-- The URL `get_blizzard_page` actually fetches. -/
def blizzBuiltUrl (btag reg : String) : String :=
  "https://playoverwatch.com/en-gb/career/pc/" ++ (reg ++ ("/" ++ replaceHash btag))

/-- The URL `get_user_page` actually fetches. -/
def pageBuiltUrl (btag reg extra : String) : String :=
  ("https://masteroverwatch.com/profile/pc/" ++ (reg ++ ("/" ++ replaceHash btag))) ++ extra

/-- The URL `update_user` actually fetches (raw battletag, no dash
normalisation in the source). -/
def updateBuiltUrl (btag reg : String) : String :=
  "https://masteroverwatch.com/profile/pc/" ++ (reg ++ ("/" ++ (btag ++ "/update")))

/-- A world where every GET fails and nothing is valid JSON. -/
def envAbsent : Env :=
  { fetch := fun _ => none, loads := fun _ => none }

/-- A world where, for battletag Foo in region eu, the existence probe
succeeds and the update endpoint reports a non-error status, but the GET
of the full profile page fails. -/
def envStepThreeFails : Env :=
  { fetch := fun url =>
      if url = blizzBuiltUrl "Foo" "eu" then some "blizzard-page"
      else if url = updateBuiltUrl "Foo" "eu" then some "update-ok-body"
      else none,
    loads := fun s =>
      if s = "update-ok-body" then some (Json.obj [("status", Json.str "ok")])
      else none }

/-- A world where the update endpoint for battletag Foo in region eu
returns a JSON payload of another shape: an object with no status field. -/
def envUpdateShape : Env :=
  { fetch := fun url =>
      if url = updateBuiltUrl "Foo" "eu" then some "weird-body" else none,
    loads := fun s =>
      if s = "weird-body" then some (Json.obj []) else none }

/-- A world where battletag Foo is unknown in eu but passes every step in
us. -/
def envUsWins : Env :=
  { fetch := fun url =>
      if url = blizzBuiltUrl "Foo" "us" then some "blizzard-page"
      else if url = updateBuiltUrl "Foo" "us" then some "update-ok-body"
      else if url = pageBuiltUrl "Foo" "us" "" then some "profile-page"
      else none,
    loads := fun s =>
      if s = "update-ok-body" then some (Json.obj [("status", Json.str "ok")])
      else none }

/-- A world where the update endpoint for battletag Foo in region eu
reports an error status with a message other than the not-found literal,
and both pages for eu are available. -/
def envRateLimited : Env :=
  { fetch := fun url =>
      if url = blizzBuiltUrl "Foo" "eu" then some "blizzard-page"
      else if url = updateBuiltUrl "Foo" "eu" then some "rl-body"
      else if url = pageBuiltUrl "Foo" "eu" "" then some "profile-page"
      else none,
    loads := fun s =>
      if s = "rl-body" then
        some (Json.obj [("status", Json.str "error"), ("message", Json.str "rate limited")])
      else none }

/-- A world where the update endpoint for battletag Foo in region eu
reports the exact not-found message, the probe page being available. -/
def envNotFound : Env :=
  { fetch := fun url =>
      if url = blizzBuiltUrl "Foo" "eu" then some "blizzard-page"
      else if url = updateBuiltUrl "Foo" "eu" then some "nf-body"
      else none,
    loads := fun s =>
      if s = "nf-body" then
        some (Json.obj [("status", Json.str "error"), ("message", Json.str moNotFoundMessage)])
      else none }

/-- A JSON error payload of the update endpoint: status error with the
given message. -/
def moErrorPayload (m : String) : Json :=
  Json.obj [("status", Json.str "error"), ("message", Json.str m)]

/-- A cache is consistent with the transport for a URL when it either
holds no live entry for it or its live entry holds exactly the body the
transport serves for it.  The empty cache is consistent for every URL,
and every operation of the model preserves consistency, because bodies
are only ever stored after being fetched from the transport. -/
def cacheConsistent (env : Env) (now : Nat) (u : String) (c : Cache) : Prop :=
  cacheGet c u now = none ∨ cacheGet c u now = env.fetch u

theorem str_append_empty (s : String) : s ++ "" = s := by
  cases s with
  | mk data => exact congrArg String.mk (List.append_nil data)

theorem parseFmt_B_PAGE : parseFmt B_PAGE_URL =
    [FmtPart.lit "https://playoverwatch.com/en-gb/career/pc/", FmtPart.field "region",
     FmtPart.lit "/", FmtPart.field "btag"] := rfl

theorem parseFmt_MO_PAGE : parseFmt MO_PAGE_URL =
    [FmtPart.lit "https://masteroverwatch.com/profile/pc/", FmtPart.field "region",
     FmtPart.lit "/", FmtPart.field "btag"] := rfl

theorem parseFmt_MO_UPDATE : parseFmt MO_UPDATE_URL =
    [FmtPart.lit "https://masteroverwatch.com/profile/pc/", FmtPart.field "region",
     FmtPart.lit "/", FmtPart.field "btag", FmtPart.lit "/update"] := rfl

theorem fmt_blizz (r b : String) :
    pyFormat B_PAGE_URL [("region", r), ("btag", b), ("cache_time", "0")] =
      Except.ok ("https://playoverwatch.com/en-gb/career/pc/" ++ (r ++ ("/" ++ b))) := by
  show renderFmt (parseFmt B_PAGE_URL) _ = _
  rw [parseFmt_B_PAGE]
  simp [renderFmt, lookupKw, str_append_empty]

theorem fmt_blizz_plain (r b : String) :
    pyFormat B_PAGE_URL [("region", r), ("btag", b)] =
      Except.ok ("https://playoverwatch.com/en-gb/career/pc/" ++ (r ++ ("/" ++ b))) := by
  show renderFmt (parseFmt B_PAGE_URL) _ = _
  rw [parseFmt_B_PAGE]
  simp [renderFmt, lookupKw, str_append_empty]

theorem fmt_mo_page (r b : String) :
    pyFormat MO_PAGE_URL [("region", r), ("btag", b)] =
      Except.ok ("https://masteroverwatch.com/profile/pc/" ++ (r ++ ("/" ++ b))) := by
  show renderFmt (parseFmt MO_PAGE_URL) _ = _
  rw [parseFmt_MO_PAGE]
  simp [renderFmt, lookupKw, str_append_empty]

theorem fmt_mo_update (b r : String) :
    pyFormat MO_UPDATE_URL [("btag", b), ("region", r)] =
      Except.ok ("https://masteroverwatch.com/profile/pc/" ++ (r ++ ("/" ++ (b ++ "/update")))) := by
  show renderFmt (parseFmt MO_UPDATE_URL) _ = _
  rw [parseFmt_MO_UPDATE]
  simp [renderFmt, lookupKw, str_append_empty]

theorem get_page_body_hit (env : Env) (now : Nat) (c : Cache) (url : String) (t : Nat)
    (bd : String) (hm : cacheGet c url now = some bd) :
    get_page_body env now c url t = (some bd, [Event.fetchBody url t], c) := by
  unfold get_page_body with_cache
  rw [hm]

theorem get_page_body_fail (env : Env) (now : Nat) (c : Cache) (url : String) (t : Nat)
    (hm : cacheGet c url now = none) (hf : env.fetch url = none) :
    get_page_body env now c url t = (none, [Event.fetchBody url t, Event.netGet url], c) := by
  unfold get_page_body with_cache
  rw [hm, hf]

theorem get_page_body_net (env : Env) (now : Nat) (c : Cache) (url : String) (t : Nat)
    (bd : String) (hm : cacheGet c url now = none) (hf : env.fetch url = some bd) :
    get_page_body env now c url t =
      (some bd, [Event.fetchBody url t, Event.netGet url], cachePut c url bd (now + t)) := by
  unfold get_page_body with_cache
  rw [hm, hf]

theorem get_page_body_trace (env : Env) (now : Nat) (c : Cache) (url : String) (t : Nat) :
    (get_page_body env now c url t).2.1 = [Event.fetchBody url t] ∨
    (get_page_body env now c url t).2.1 = [Event.fetchBody url t, Event.netGet url] := by
  unfold get_page_body with_cache
  cases cacheGet c url now with
  | some bd => exact Or.inl rfl
  | none =>
    cases env.fetch url with
    | none => exact Or.inr rfl
    | some bd => exact Or.inr rfl

theorem blizz_run_some (env : Env) (now : Nat) (c : Cache) (b r bd : String)
    (h : (get_page_body env now c (blizzBuiltUrl b r) 300).1 = some bd) :
    get_blizzard_page env now c b r =
      (Except.ok (some (Document.mk bd)),
       Event.probe b r :: (get_page_body env now c (blizzBuiltUrl b r) 300).2.1 ++
         [Event.parseAttempt (some bd)],
       (get_page_body env now c (blizzBuiltUrl b r) 300).2.2) := by
  unfold blizzBuiltUrl at h ⊢
  unfold get_blizzard_page
  rw [fmt_blizz]
  simp only [h]
  rfl

theorem blizz_run_none (env : Env) (now : Nat) (c : Cache) (b r : String)
    (h : (get_page_body env now c (blizzBuiltUrl b r) 300).1 = none) :
    get_blizzard_page env now c b r =
      (Except.ok none,
       Event.probe b r :: (get_page_body env now c (blizzBuiltUrl b r) 300).2.1,
       (get_page_body env now c (blizzBuiltUrl b r) 300).2.2) := by
  unfold blizzBuiltUrl at h ⊢
  unfold get_blizzard_page
  rw [fmt_blizz]
  simp only [h]

theorem user_page_run (env : Env) (now : Nat) (c : Cache) (b r e : String) (ct : Nat) :
    get_user_page env now c b r e ct =
      (_parse_page (get_page_body env now c (pageBuiltUrl b r e) ct).1,
       Event.profileReq b r e :: (get_page_body env now c (pageBuiltUrl b r e) ct).2.1 ++
         [Event.parseAttempt (get_page_body env now c (pageBuiltUrl b r e) ct).1],
       (get_page_body env now c (pageBuiltUrl b r e) ct).2.2) := by
  unfold pageBuiltUrl
  unfold get_user_page
  rw [fmt_mo_page]

theorem update_run (env : Env) (now : Nat) (c : Cache) (b r : String) :
    update_user env now c b r =
      (updateJsonResult env (get_page_body env now c (updateBuiltUrl b r) 300).1,
       Event.updateReq b r :: (get_page_body env now c (updateBuiltUrl b r) 300).2.1,
       (get_page_body env now c (updateBuiltUrl b r) 300).2.2) := by
  unfold updateBuiltUrl
  unfold update_user
  rw [fmt_mo_update]

theorem mem_probeRegs (x y : String) (tr : List Event) (h : Event.probe x y ∈ tr) :
    y ∈ probeRegs tr :=
  List.mem_filterMap.mpr ⟨Event.probe x y, h, rfl⟩

theorem mem_updateRegs (x y : String) (tr : List Event) (h : Event.updateReq x y ∈ tr) :
    y ∈ updateRegs tr :=
  List.mem_filterMap.mpr ⟨Event.updateReq x y, h, rfl⟩

theorem mem_profileRegs (x y z : String) (tr : List Event) (h : Event.profileReq x y z ∈ tr) :
    y ∈ profileRegs tr :=
  List.mem_filterMap.mpr ⟨Event.profileReq x y z, h, rfl⟩

theorem pb_regs (env : Env) (now : Nat) (c : Cache) (url : String) (t : Nat) :
    probeRegs ((get_page_body env now c url t).2.1) = [] ∧
    updateRegs ((get_page_body env now c url t).2.1) = [] ∧
    profileRegs ((get_page_body env now c url t).2.1) = [] := by
  rcases get_page_body_trace env now c url t with h | h <;> rw [h] <;>
    exact ⟨rfl, rfl, rfl⟩

theorem blizz_regs (env : Env) (now : Nat) (c : Cache) (b r : String) :
    probeRegs ((get_blizzard_page env now c b r).2.1) = [r] ∧
    updateRegs ((get_blizzard_page env now c b r).2.1) = [] ∧
    profileRegs ((get_blizzard_page env now c b r).2.1) = [] := by
  rcases hpb : (get_page_body env now c (blizzBuiltUrl b r) 300).1 with _ | bd
  · rw [blizz_run_none env now c b r hpb]
    have h := pb_regs env now c (blizzBuiltUrl b r) 300
    simp only [probeRegs, updateRegs, profileRegs, List.filterMap_cons] at h ⊢
    simp [regOfProbe, regOfUpdate, regOfProfile, h.1, h.2.1, h.2.2]
  · rw [blizz_run_some env now c b r bd hpb]
    have h := pb_regs env now c (blizzBuiltUrl b r) 300
    simp only [probeRegs, updateRegs, profileRegs, List.filterMap_cons,
      List.filterMap_append] at h ⊢
    simp [regOfProbe, regOfUpdate, regOfProfile, h.1, h.2.1, h.2.2]

theorem update_regs (env : Env) (now : Nat) (c : Cache) (b r : String) :
    probeRegs ((update_user env now c b r).2.1) = [] ∧
    updateRegs ((update_user env now c b r).2.1) = [r] ∧
    profileRegs ((update_user env now c b r).2.1) = [] := by
  rw [update_run]
  have h := pb_regs env now c (updateBuiltUrl b r) 300
  simp only [probeRegs, updateRegs, profileRegs, List.filterMap_cons] at h ⊢
  simp [regOfProbe, regOfUpdate, regOfProfile, h.1, h.2.1, h.2.2]

theorem user_page_regs (env : Env) (now : Nat) (c : Cache) (b r e : String) (ct : Nat) :
    probeRegs ((get_user_page env now c b r e ct).2.1) = [] ∧
    updateRegs ((get_user_page env now c b r e ct).2.1) = [] ∧
    profileRegs ((get_user_page env now c b r e ct).2.1) = [r] := by
  rw [user_page_run]
  have h := pb_regs env now c (pageBuiltUrl b r e) ct
  simp only [probeRegs, updateRegs, profileRegs, List.filterMap_cons,
    List.filterMap_append] at h ⊢
  simp [regOfProbe, regOfUpdate, regOfProfile, h.1, h.2.1, h.2.2]

theorem region_loop_cons (env : Env) (now : Nat) (b e reg : String) (rest : List String)
    (c : Cache) :
    region_loop env now b e (reg :: rest) c =
      (match (get_blizzard_page env now c b reg).1 with
       | Except.error err =>
         (Except.error err, (get_blizzard_page env now c b reg).2.1,
          (get_blizzard_page env now c b reg).2.2)
       | Except.ok none =>
         ((region_loop env now b e rest (get_blizzard_page env now c b reg).2.2).1,
          (get_blizzard_page env now c b reg).2.1 ++
            (region_loop env now b e rest (get_blizzard_page env now c b reg).2.2).2.1,
          (region_loop env now b e rest (get_blizzard_page env now c b reg).2.2).2.2)
       | Except.ok (some _) =>
         (match (update_user env now (get_blizzard_page env now c b reg).2.2 b reg).1 with
          | Except.error err =>
            (Except.error err,
             (get_blizzard_page env now c b reg).2.1 ++
               (update_user env now (get_blizzard_page env now c b reg).2.2 b reg).2.1,
             (update_user env now (get_blizzard_page env now c b reg).2.2 b reg).2.2)
          | Except.ok false =>
            ((region_loop env now b e rest
                (update_user env now (get_blizzard_page env now c b reg).2.2 b reg).2.2).1,
             (get_blizzard_page env now c b reg).2.1 ++
               (update_user env now (get_blizzard_page env now c b reg).2.2 b reg).2.1 ++
               (region_loop env now b e rest
                 (update_user env now (get_blizzard_page env now c b reg).2.2 b reg).2.2).2.1,
             (region_loop env now b e rest
               (update_user env now (get_blizzard_page env now c b reg).2.2 b reg).2.2).2.2)
          | Except.ok true =>
            (match (get_user_page env now
                (update_user env now (get_blizzard_page env now c b reg).2.2 b reg).2.2
                b reg e 300).1 with
             | Except.error err =>
               (Except.error err,
                (get_blizzard_page env now c b reg).2.1 ++
                  (update_user env now (get_blizzard_page env now c b reg).2.2 b reg).2.1 ++
                  (get_user_page env now
                    (update_user env now (get_blizzard_page env now c b reg).2.2 b reg).2.2
                    b reg e 300).2.1,
                (get_user_page env now
                  (update_user env now (get_blizzard_page env now c b reg).2.2 b reg).2.2
                  b reg e 300).2.2)
             | Except.ok d =>
               (Except.ok (some d, some reg),
                (get_blizzard_page env now c b reg).2.1 ++
                  (update_user env now (get_blizzard_page env now c b reg).2.2 b reg).2.1 ++
                  (get_user_page env now
                    (update_user env now (get_blizzard_page env now c b reg).2.2 b reg).2.2
                    b reg e 300).2.1,
                (get_user_page env now
                  (update_user env now (get_blizzard_page env now c b reg).2.2 b reg).2.2
                  b reg e 300).2.2)))) := rfl

theorem probeRegs_append (xs ys : List Event) :
    probeRegs (xs ++ ys) = probeRegs xs ++ probeRegs ys := by
  simp [probeRegs]

theorem updateRegs_append (xs ys : List Event) :
    updateRegs (xs ++ ys) = updateRegs xs ++ updateRegs ys := by
  simp [updateRegs]

theorem profileRegs_append (xs ys : List Event) :
    profileRegs (xs ++ ys) = profileRegs xs ++ profileRegs ys := by
  simp [profileRegs]

theorem region_loop_probe_prefix (env : Env) (now : Nat) (b e : String) :
    ∀ (rl : List String) (c : Cache),
      ∃ k, probeRegs ((region_loop env now b e rl c).2.1) = rl.take k := by
  intro rl
  induction rl with
  | nil => intro c; exact ⟨0, rfl⟩
  | cons reg rest ih =>
    intro c
    rw [region_loop_cons]
    rcases hbz : (get_blizzard_page env now c b reg).1 with err | ob
    · refine ⟨1, ?_⟩
      simp only [hbz]
      rw [(blizz_regs env now c b reg).1]
      rfl
    · rcases ob with _ | d
      · obtain ⟨k, hk⟩ := ih (get_blizzard_page env now c b reg).2.2
        refine ⟨k + 1, ?_⟩
        simp only [hbz]
        rw [probeRegs_append, (blizz_regs env now c b reg).1, hk]
        rfl
      · rcases hup : (update_user env now (get_blizzard_page env now c b reg).2.2 b reg).1
          with uerr | ub
        · refine ⟨1, ?_⟩
          simp only [hbz, hup]
          rw [probeRegs_append, (blizz_regs env now c b reg).1,
            (update_regs env now (get_blizzard_page env now c b reg).2.2 b reg).1]
          rfl
        · cases ub
          · obtain ⟨k, hk⟩ :=
              ih (update_user env now (get_blizzard_page env now c b reg).2.2 b reg).2.2
            refine ⟨k + 1, ?_⟩
            simp only [hbz, hup]
            rw [probeRegs_append, probeRegs_append, (blizz_regs env now c b reg).1,
              (update_regs env now (get_blizzard_page env now c b reg).2.2 b reg).1, hk]
            rfl
          · rcases hpg : (get_user_page env now
                (update_user env now (get_blizzard_page env now c b reg).2.2 b reg).2.2
                b reg e 300).1 with perr | d2
            · refine ⟨1, ?_⟩
              simp only [hbz, hup, hpg]
              rw [probeRegs_append, probeRegs_append, (blizz_regs env now c b reg).1,
                (update_regs env now (get_blizzard_page env now c b reg).2.2 b reg).1,
                (user_page_regs env now
                  (update_user env now (get_blizzard_page env now c b reg).2.2 b reg).2.2
                  b reg e 300).1]
              rfl
            · refine ⟨1, ?_⟩
              simp only [hbz, hup, hpg]
              rw [probeRegs_append, probeRegs_append, (blizz_regs env now c b reg).1,
                (update_regs env now (get_blizzard_page env now c b reg).2.2 b reg).1,
                (user_page_regs env now
                  (update_user env now (get_blizzard_page env now c b reg).2.2 b reg).2.2
                  b reg e 300).1]
              rfl

theorem region_loop_success (env : Env) (now : Nat) (b e : String) :
    ∀ (rl : List String) (c : Cache) (d : Document) (r : String),
      (region_loop env now b e rl c).1 = Except.ok (some d, some r) →
      ∃ k, rl.get? k = some r ∧
        probeRegs ((region_loop env now b e rl c).2.1) = rl.take (k + 1) ∧
        profileRegs ((region_loop env now b e rl c).2.1) = [r] := by
  intro rl
  induction rl with
  | nil => intro c d r h; simp [region_loop] at h
  | cons reg rest ih =>
    intro c d r h
    rw [region_loop_cons] at h ⊢
    rcases hbz : (get_blizzard_page env now c b reg).1 with err | ob
    · rw [hbz] at h; simp at h
    · rcases ob with _ | dd
      · rw [hbz] at h
        simp only at h
        obtain ⟨k, h1, h2, h3⟩ := ih (get_blizzard_page env now c b reg).2.2 d r h
        refine ⟨k + 1, h1, ?_, ?_⟩
        · simp only [hbz]
          rw [probeRegs_append, (blizz_regs env now c b reg).1, h2]
          rfl
        · simp only [hbz]
          rw [profileRegs_append, (blizz_regs env now c b reg).2.2, h3]
          rfl
      · rw [hbz] at h
        simp only at h
        rcases hup : (update_user env now (get_blizzard_page env now c b reg).2.2 b reg).1
          with uerr | ub
        · rw [hup] at h; simp at h
        · cases ub
          · rw [hup] at h
            simp only at h
            obtain ⟨k, h1, h2, h3⟩ :=
              ih (update_user env now (get_blizzard_page env now c b reg).2.2 b reg).2.2 d r h
            refine ⟨k + 1, h1, ?_, ?_⟩
            · simp only [hbz, hup]
              rw [probeRegs_append, probeRegs_append, (blizz_regs env now c b reg).1,
                (update_regs env now (get_blizzard_page env now c b reg).2.2 b reg).1, h2]
              rfl
            · simp only [hbz, hup]
              rw [profileRegs_append, profileRegs_append, (blizz_regs env now c b reg).2.2,
                (update_regs env now (get_blizzard_page env now c b reg).2.2 b reg).2.2, h3]
              rfl
          · rcases hpg : (get_user_page env now
                (update_user env now (get_blizzard_page env now c b reg).2.2 b reg).2.2
                b reg e 300).1 with perr | d2
            · rw [hup, hpg] at h; simp at h
            · rw [hup, hpg] at h
              simp only [Except.ok.injEq, Prod.mk.injEq, Option.some.injEq] at h
              obtain ⟨hd, hr⟩ := h
              subst hr
              refine ⟨0, rfl, ?_, ?_⟩
              · simp only [hbz, hup, hpg]
                rw [probeRegs_append, probeRegs_append, (blizz_regs env now c b reg).1,
                  (update_regs env now (get_blizzard_page env now c b reg).2.2 b reg).1,
                  (user_page_regs env now
                    (update_user env now (get_blizzard_page env now c b reg).2.2 b reg).2.2
                    b reg e 300).1]
                rfl
              · simp only [hbz, hup, hpg]
                rw [profileRegs_append, profileRegs_append, (blizz_regs env now c b reg).2.2,
                  (update_regs env now (get_blizzard_page env now c b reg).2.2 b reg).2.2,
                  (user_page_regs env now
                    (update_user env now (get_blizzard_page env now c b reg).2.2 b reg).2.2
                    b reg e 300).2.2]
                rfl

theorem cc_pb_none (env : Env) (now : Nat) (c : Cache) (u : String) (t : Nat)
    (hf : env.fetch u = none) (hcc : cacheConsistent env now u c) :
    get_page_body env now c u t = (none, [Event.fetchBody u t, Event.netGet u], c) := by
  have hcg : cacheGet c u now = none := by
    rcases hcc with h | h
    · exact h
    · rw [h, hf]
  exact get_page_body_fail env now c u t hcg hf

theorem cc_pb_some (env : Env) (now : Nat) (c : Cache) (u : String) (t : Nat) (s : String)
    (hf : env.fetch u = some s) (hcc : cacheConsistent env now u c) :
    (get_page_body env now c u t).1 = some s := by
  rcases hcc with h | h
  · rw [get_page_body_net env now c u t s h hf]
  · have hcg : cacheGet c u now = some s := by rw [h, hf]
    rw [get_page_body_hit env now c u t s hcg]

theorem cc_pres_pb (env : Env) (now : Nat) (u : String) (c : Cache)
    (hcc : cacheConsistent env now u c) (url : String) (t : Nat) :
    cacheConsistent env now u ((get_page_body env now c url t).2.2) := by
  rcases hcg : cacheGet c url now with _ | bd
  · rcases hfu : env.fetch url with _ | bd2
    · rw [get_page_body_fail env now c url t hcg hfu]
      exact hcc
    · rw [get_page_body_net env now c url t bd2 hcg hfu]
      show cacheConsistent env now u (cachePut c url bd2 (now + t))
      unfold cacheConsistent cachePut
      simp only [cacheGet]
      by_cases hequ : url = u
      · rw [if_pos hequ]
        by_cases hlt : now < now + t
        · rw [if_pos hlt]
          right
          rw [← hequ, hfu]
        · rw [if_neg hlt]
          exact Or.inl rfl
      · rw [if_neg hequ]
        exact hcc
  · rw [get_page_body_hit env now c url t bd hcg]
    exact hcc

theorem blizz_cache_eq (env : Env) (now : Nat) (c : Cache) (b r : String) :
    (get_blizzard_page env now c b r).2.2 =
      (get_page_body env now c (blizzBuiltUrl b r) 300).2.2 := by
  rcases hpb : (get_page_body env now c (blizzBuiltUrl b r) 300).1 with _ | bd
  · rw [blizz_run_none env now c b r hpb]
  · rw [blizz_run_some env now c b r bd hpb]

theorem update_cache_eq (env : Env) (now : Nat) (c : Cache) (b r : String) :
    (update_user env now c b r).2.2 =
      (get_page_body env now c (updateBuiltUrl b r) 300).2.2 := by
  rw [update_run]

theorem cc_pres_blizz (env : Env) (now : Nat) (u : String) (c : Cache)
    (hcc : cacheConsistent env now u c) (b r : String) :
    cacheConsistent env now u ((get_blizzard_page env now c b r).2.2) := by
  rw [blizz_cache_eq]
  exact cc_pres_pb env now u c hcc (blizzBuiltUrl b r) 300

theorem cc_pres_update (env : Env) (now : Nat) (u : String) (c : Cache)
    (hcc : cacheConsistent env now u c) (b r : String) :
    cacheConsistent env now u ((update_user env now c b r).2.2) := by
  rw [update_cache_eq]
  exact cc_pres_pb env now u c hcc (updateBuiltUrl b r) 300

theorem update_false_cc (env : Env) (now : Nat) (c : Cache) (b r s : String)
    (hf : env.fetch (updateBuiltUrl b r) = some s)
    (hl : env.loads s = some (moErrorPayload moNotFoundMessage))
    (hcc : cacheConsistent env now (updateBuiltUrl b r) c) :
    (update_user env now c b r).1 = Except.ok false := by
  have hpb := cc_pb_some env now c (updateBuiltUrl b r) 300 s hf hcc
  rw [update_run, hpb]
  show updateJsonResult env (some s) = _
  unfold updateJsonResult
  dsimp only
  rw [hl]
  rfl

theorem update_true_cc (env : Env) (now : Nat) (c : Cache) (b r s m : String)
    (hm : m ≠ moNotFoundMessage)
    (hf : env.fetch (updateBuiltUrl b r) = some s)
    (hl : env.loads s = some (moErrorPayload m))
    (hcc : cacheConsistent env now (updateBuiltUrl b r) c) :
    (update_user env now c b r).1 = Except.ok true := by
  have hpb := cc_pb_some env now c (updateBuiltUrl b r) 300 s hf hcc
  rw [update_run, hpb]
  show updateJsonResult env (some s) = _
  unfold updateJsonResult
  dsimp only
  rw [hl]
  have hbe : (m == moNotFoundMessage) = false := beq_eq_false_iff_ne.mpr hm
  simp [moErrorPayload, Json.getItem, lookupField, jsonEqStr, hbe]

theorem region_loop_skip_all (env : Env) (now : Nat) (b e : String) :
    ∀ (rl : List String) (c : Cache),
      (∀ r ∈ rl,
        (env.fetch (blizzBuiltUrl b r) = none ∧
         cacheConsistent env now (blizzBuiltUrl b r) c) ∨
        ((∃ s, env.fetch (updateBuiltUrl b r) = some s ∧
            env.loads s = some (moErrorPayload moNotFoundMessage)) ∧
         cacheConsistent env now (updateBuiltUrl b r) c)) →
      (region_loop env now b e rl c).1 = Except.ok (none, none) := by
  intro rl
  induction rl with
  | nil => intro c _; rfl
  | cons reg rest ih =>
    intro c h
    rw [region_loop_cons]
    rcases h reg (List.mem_cons_self reg rest) with ⟨hf, hcc⟩ | ⟨⟨s, hfu, hls⟩, hccu⟩
    · have hpb1 : (get_page_body env now c (blizzBuiltUrl b reg) 300).1 = none := by
        rw [cc_pb_none env now c (blizzBuiltUrl b reg) 300 hf hcc]
      have hbz1 : (get_blizzard_page env now c b reg).1 = Except.ok none := by
        rw [blizz_run_none env now c b reg hpb1]
      simp only [hbz1]
      refine ih (get_blizzard_page env now c b reg).2.2 ?_
      intro r hr
      rcases h r (List.mem_cons_of_mem reg hr) with ⟨hf2, hcc2⟩ | ⟨hs2, hcc2⟩
      · exact Or.inl ⟨hf2, cc_pres_blizz env now (blizzBuiltUrl b r) c hcc2 b reg⟩
      · exact Or.inr ⟨hs2, cc_pres_blizz env now (updateBuiltUrl b r) c hcc2 b reg⟩
    · rcases hpb : (get_page_body env now c (blizzBuiltUrl b reg) 300).1 with _ | bd
      · have hbz1 : (get_blizzard_page env now c b reg).1 = Except.ok none := by
          rw [blizz_run_none env now c b reg hpb]
        simp only [hbz1]
        refine ih (get_blizzard_page env now c b reg).2.2 ?_
        intro r hr
        rcases h r (List.mem_cons_of_mem reg hr) with ⟨hf2, hcc2⟩ | ⟨hs2, hcc2⟩
        · exact Or.inl ⟨hf2, cc_pres_blizz env now (blizzBuiltUrl b r) c hcc2 b reg⟩
        · exact Or.inr ⟨hs2, cc_pres_blizz env now (updateBuiltUrl b r) c hcc2 b reg⟩
      · have hbz1 : (get_blizzard_page env now c b reg).1 =
            Except.ok (some (Document.mk bd)) := by
          rw [blizz_run_some env now c b reg bd hpb]
        have hupd : (update_user env now (get_blizzard_page env now c b reg).2.2 b reg).1 =
            Except.ok false :=
          update_false_cc env now (get_blizzard_page env now c b reg).2.2 b reg s hfu hls
            (cc_pres_blizz env now (updateBuiltUrl b reg) c hccu b reg)
        simp only [hbz1, hupd]
        refine ih (update_user env now (get_blizzard_page env now c b reg).2.2 b reg).2.2 ?_
        intro r hr
        rcases h r (List.mem_cons_of_mem reg hr) with ⟨hf2, hcc2⟩ | ⟨hs2, hcc2⟩
        · exact Or.inl ⟨hf2,
            cc_pres_update env now (blizzBuiltUrl b r)
              (get_blizzard_page env now c b reg).2.2
              (cc_pres_blizz env now (blizzBuiltUrl b r) c hcc2 b reg) b reg⟩
        · exact Or.inr ⟨hs2,
            cc_pres_update env now (updateBuiltUrl b r)
              (get_blizzard_page env now c b reg).2.2
              (cc_pres_blizz env now (updateBuiltUrl b r) c hcc2 b reg) b reg⟩

theorem region_loop_all_probe_fail (env : Env) (now : Nat) (b e : String) :
    ∀ (rl : List String) (c : Cache),
      (∀ r ∈ rl, env.fetch (blizzBuiltUrl b r) = none ∧
        cacheConsistent env now (blizzBuiltUrl b r) c) →
      (region_loop env now b e rl c).1 = Except.ok (none, none) ∧
      probeRegs ((region_loop env now b e rl c).2.1) = rl ∧
      updateRegs ((region_loop env now b e rl c).2.1) = [] := by
  intro rl
  induction rl with
  | nil => intro c _; exact ⟨rfl, rfl, rfl⟩
  | cons reg rest ih =>
    intro c h
    obtain ⟨hf, hcc⟩ := h reg (List.mem_cons_self reg rest)
    have hpbt := cc_pb_none env now c (blizzBuiltUrl b reg) 300 hf hcc
    have hpb1 : (get_page_body env now c (blizzBuiltUrl b reg) 300).1 = none := by
      rw [hpbt]
    have hpb2 : (get_page_body env now c (blizzBuiltUrl b reg) 300).2.2 = c := by
      rw [hpbt]
    have hbz := blizz_run_none env now c b reg hpb1
    have hbz1 : (get_blizzard_page env now c b reg).1 = Except.ok none := by rw [hbz]
    have hbzc : (get_blizzard_page env now c b reg).2.2 = c := by
      rw [blizz_cache_eq]
      exact hpb2
    have hrest : ∀ r ∈ rest, env.fetch (blizzBuiltUrl b r) = none ∧
        cacheConsistent env now (blizzBuiltUrl b r) c :=
      fun r hr => h r (List.mem_cons_of_mem reg hr)
    obtain ⟨ih1, ih2, ih3⟩ := ih c hrest
    rw [region_loop_cons]
    simp only [hbz1]
    rw [hbzc]
    refine ⟨ih1, ?_, ?_⟩
    · rw [probeRegs_append, (blizz_regs env now c b reg).1, ih2]
      rfl
    · rw [updateRegs_append, (blizz_regs env now c b reg).2.1, ih3]
      rfl

theorem no_profile_of_nil (x y z : String) (tr : List Event)
    (h : profileRegs tr = []) : Event.profileReq x y z ∉ tr := by
  intro hm
  have hy := mem_profileRegs x y z tr hm
  rw [h] at hy
  exact absurd hy (List.not_mem_nil y)

theorem no_update_of_nil (x y : String) (tr : List Event)
    (h : updateRegs tr = []) : Event.updateReq x y ∉ tr := by
  intro hm
  have hy := mem_updateRegs x y tr hm
  rw [h] at hy
  exact absurd hy (List.not_mem_nil y)

theorem region_loop_notfound_no_profile (env : Env) (now : Nat) (b e r s : String)
    (hf : env.fetch (updateBuiltUrl b r) = some s)
    (hl : env.loads s = some (moErrorPayload moNotFoundMessage)) :
    ∀ (rl : List String) (c : Cache),
      cacheConsistent env now (updateBuiltUrl b r) c →
      Event.profileReq b r e ∉ (region_loop env now b e rl c).2.1 := by
  intro rl
  induction rl with
  | nil => intro c _ hm; exact absurd hm (List.not_mem_nil _)
  | cons reg rest ih =>
    intro c hcc
    rw [region_loop_cons]
    rcases hbz : (get_blizzard_page env now c b reg).1 with err | ob
    · simp only [hbz]
      exact no_profile_of_nil b r e _ (blizz_regs env now c b reg).2.2
    · rcases ob with _ | dd
      · simp only [hbz]
        intro hm
        rcases List.mem_append.mp hm with h1 | h2
        · exact no_profile_of_nil b r e _ (blizz_regs env now c b reg).2.2 h1
        · exact ih (get_blizzard_page env now c b reg).2.2
            (cc_pres_blizz env now (updateBuiltUrl b r) c hcc b reg) h2
      · rcases hup : (update_user env now (get_blizzard_page env now c b reg).2.2 b reg).1
          with uerr | ub
        · simp only [hbz, hup]
          intro hm
          rcases List.mem_append.mp hm with h1 | h2
          · exact no_profile_of_nil b r e _ (blizz_regs env now c b reg).2.2 h1
          · exact no_profile_of_nil b r e _
              (update_regs env now (get_blizzard_page env now c b reg).2.2 b reg).2.2 h2
        · cases ub
          · simp only [hbz, hup]
            intro hm
            rcases List.mem_append.mp hm with h12 | h3
            · rcases List.mem_append.mp h12 with h1 | h2
              · exact no_profile_of_nil b r e _ (blizz_regs env now c b reg).2.2 h1
              · exact no_profile_of_nil b r e _
                  (update_regs env now (get_blizzard_page env now c b reg).2.2 b reg).2.2 h2
            · exact ih
                (update_user env now (get_blizzard_page env now c b reg).2.2 b reg).2.2
                (cc_pres_update env now (updateBuiltUrl b r)
                  (get_blizzard_page env now c b reg).2.2
                  (cc_pres_blizz env now (updateBuiltUrl b r) c hcc b reg) b reg) h3
          · rcases hpg : (get_user_page env now
                (update_user env now (get_blizzard_page env now c b reg).2.2 b reg).2.2
                b reg e 300).1 with perr | d2 <;>
              simp only [hbz, hup, hpg] <;>
              intro hm <;>
              rcases List.mem_append.mp hm with h12 | h3
            · rcases List.mem_append.mp h12 with h1 | h2
              · exact no_profile_of_nil b r e _ (blizz_regs env now c b reg).2.2 h1
              · exact no_profile_of_nil b r e _
                  (update_regs env now (get_blizzard_page env now c b reg).2.2 b reg).2.2 h2
            · have hr2 : r ∈ profileRegs ((get_user_page env now
                  (update_user env now (get_blizzard_page env now c b reg).2.2 b reg).2.2
                  b reg e 300).2.1) := mem_profileRegs b r e _ h3
              rw [(user_page_regs env now
                  (update_user env now (get_blizzard_page env now c b reg).2.2 b reg).2.2
                  b reg e 300).2.2] at hr2
              have hreq : r = reg := List.mem_singleton.mp hr2
              subst hreq
              have hcontra := update_false_cc env now
                (get_blizzard_page env now c b r).2.2 b r s hf hl
                (cc_pres_blizz env now (updateBuiltUrl b r) c hcc b r)
              rw [hup] at hcontra
              exact absurd hcontra (by simp)
            · rcases List.mem_append.mp h12 with h1 | h2
              · exact no_profile_of_nil b r e _ (blizz_regs env now c b reg).2.2 h1
              · exact no_profile_of_nil b r e _
                  (update_regs env now (get_blizzard_page env now c b reg).2.2 b reg).2.2 h2
            · have hr2 : r ∈ profileRegs ((get_user_page env now
                  (update_user env now (get_blizzard_page env now c b reg).2.2 b reg).2.2
                  b reg e 300).2.1) := mem_profileRegs b r e _ h3
              rw [(user_page_regs env now
                  (update_user env now (get_blizzard_page env now c b reg).2.2 b reg).2.2
                  b reg e 300).2.2] at hr2
              have hreq : r = reg := List.mem_singleton.mp hr2
              subst hreq
              have hcontra := update_false_cc env now
                (get_blizzard_page env now c b r).2.2 b r s hf hl
                (cc_pres_blizz env now (updateBuiltUrl b r) c hcc b r)
              rw [hup] at hcontra
              exact absurd hcontra (by simp)

theorem profile_mem_user_page (env : Env) (now : Nat) (c : Cache) (b reg e : String)
    (ct : Nat) : Event.profileReq b reg e ∈ (get_user_page env now c b reg e ct).2.1 := by
  rw [user_page_run]
  exact List.mem_cons_self _ _

theorem update_mem_update_user (env : Env) (now : Nat) (c : Cache) (b reg : String) :
    Event.updateReq b reg ∈ (update_user env now c b reg).2.1 := by
  rw [update_run]
  exact List.mem_cons_self _ _

theorem update_trace_reg (env : Env) (now : Nat) (c : Cache) (b reg r : String)
    (h : Event.updateReq b r ∈ (update_user env now c b reg).2.1) : r = reg := by
  have hr := mem_updateRegs b r _ h
  rw [(update_regs env now c b reg).2.1] at hr
  exact List.mem_singleton.mp hr

theorem region_loop_update_then_profile (env : Env) (now : Nat) (b e r s m : String)
    (hf : env.fetch (updateBuiltUrl b r) = some s)
    (hl : env.loads s = some (moErrorPayload m))
    (hm : m ≠ moNotFoundMessage) :
    ∀ (rl : List String) (c : Cache),
      cacheConsistent env now (updateBuiltUrl b r) c →
      Event.updateReq b r ∈ (region_loop env now b e rl c).2.1 →
      Event.profileReq b r e ∈ (region_loop env now b e rl c).2.1 := by
  intro rl
  induction rl with
  | nil => intro c _ hmem; exact absurd hmem (List.not_mem_nil _)
  | cons reg rest ih =>
    intro c hcc
    rw [region_loop_cons]
    rcases hbz : (get_blizzard_page env now c b reg).1 with err | ob
    · simp only [hbz]
      intro hmem
      exact absurd hmem (no_update_of_nil b r _ (blizz_regs env now c b reg).2.1)
    · rcases ob with _ | dd
      · simp only [hbz]
        intro hmem
        rcases List.mem_append.mp hmem with h1 | h2
        · exact absurd h1 (no_update_of_nil b r _ (blizz_regs env now c b reg).2.1)
        · exact List.mem_append.mpr (Or.inr
            (ih (get_blizzard_page env now c b reg).2.2
              (cc_pres_blizz env now (updateBuiltUrl b r) c hcc b reg) h2))
      · rcases hup : (update_user env now (get_blizzard_page env now c b reg).2.2 b reg).1
          with uerr | ub
        · simp only [hbz, hup]
          intro hmem
          rcases List.mem_append.mp hmem with h1 | h2
          · exact absurd h1 (no_update_of_nil b r _ (blizz_regs env now c b reg).2.1)
          · have hreq := update_trace_reg env now _ b reg r h2
            subst hreq
            have hcontra := update_true_cc env now
              (get_blizzard_page env now c b r).2.2 b r s m hm hf hl
              (cc_pres_blizz env now (updateBuiltUrl b r) c hcc b r)
            rw [hup] at hcontra
            exact absurd hcontra (by simp)
        · cases ub
          · simp only [hbz, hup]
            intro hmem
            rcases List.mem_append.mp hmem with h12 | h3
            · rcases List.mem_append.mp h12 with h1 | h2
              · exact absurd h1 (no_update_of_nil b r _ (blizz_regs env now c b reg).2.1)
              · have hreq := update_trace_reg env now _ b reg r h2
                subst hreq
                have hcontra := update_true_cc env now
                  (get_blizzard_page env now c b r).2.2 b r s m hm hf hl
                  (cc_pres_blizz env now (updateBuiltUrl b r) c hcc b r)
                rw [hup] at hcontra
                exact absurd hcontra (by simp)
            · exact List.mem_append.mpr (Or.inr
                (ih (update_user env now (get_blizzard_page env now c b reg).2.2 b reg).2.2
                  (cc_pres_update env now (updateBuiltUrl b r)
                    (get_blizzard_page env now c b reg).2.2
                    (cc_pres_blizz env now (updateBuiltUrl b r) c hcc b reg) b reg) h3))
          · rcases hpg : (get_user_page env now
                (update_user env now (get_blizzard_page env now c b reg).2.2 b reg).2.2
                b reg e 300).1 with perr | d2 <;>
              simp only [hbz, hup, hpg] <;>
              intro hmem <;>
              rcases List.mem_append.mp hmem with h12 | h3
            · rcases List.mem_append.mp h12 with h1 | h2
              · exact absurd h1 (no_update_of_nil b r _ (blizz_regs env now c b reg).2.1)
              · have hreq := update_trace_reg env now _ b reg r h2
                subst hreq
                exact List.mem_append.mpr
                  (Or.inr (profile_mem_user_page env now _ b r e 300))
            · exact absurd h3 (no_update_of_nil b r _
                (user_page_regs env now
                  (update_user env now (get_blizzard_page env now c b reg).2.2 b reg).2.2
                  b reg e 300).2.1)
            · rcases List.mem_append.mp h12 with h1 | h2
              · exact absurd h1 (no_update_of_nil b r _ (blizz_regs env now c b reg).2.1)
              · have hreq := update_trace_reg env now _ b reg r h2
                subst hreq
                exact List.mem_append.mpr
                  (Or.inr (profile_mem_user_page env now _ b r e 300))
            · exact absurd h3 (no_update_of_nil b r _
                (user_page_regs env now
                  (update_user env now (get_blizzard_page env now c b reg).2.2 b reg).2.2
                  b reg e 300).2.1)

theorem jsonEqStr_true_iff (j : Json) (s : String) :
    jsonEqStr j s = true ↔ j = Json.str s := by
  cases j <;> simp [jsonEqStr]

/-- C1: the code_bug theorem.  At battletag Foo#1234 in region eu, the
URL fetched by `update_user` (witnessed by its own fetch event) still
contains the hash character, while `get_user_page` and
`get_blizzard_page` fetch URLs with the dash-normalised segment
Foo-1234; the raw and the dash-normalised update URLs differ. -/
theorem update_user_url_keeps_hash :
    updateBuiltUrl "Foo#1234" "eu" =
      "https://masteroverwatch.com/profile/pc/eu/Foo#1234/update" ∧
    (update_user envAbsent 0 [] "Foo#1234" "eu").2.1 =
      [Event.updateReq "Foo#1234" "eu",
       Event.fetchBody "https://masteroverwatch.com/profile/pc/eu/Foo#1234/update" 300,
       Event.netGet "https://masteroverwatch.com/profile/pc/eu/Foo#1234/update"] ∧
    (get_user_page envAbsent 0 [] "Foo#1234" "eu" "" 300).2.1 =
      [Event.profileReq "Foo#1234" "eu" "",
       Event.fetchBody "https://masteroverwatch.com/profile/pc/eu/Foo-1234" 300,
       Event.netGet "https://masteroverwatch.com/profile/pc/eu/Foo-1234",
       Event.parseAttempt none] ∧
    (get_blizzard_page envAbsent 0 [] "Foo#1234" "eu").2.1 =
      [Event.probe "Foo#1234" "eu",
       Event.fetchBody "https://playoverwatch.com/en-gb/career/pc/eu/Foo-1234" 300,
       Event.netGet "https://playoverwatch.com/en-gb/career/pc/eu/Foo-1234"] ∧
    "https://masteroverwatch.com/profile/pc/eu/Foo#1234/update" ≠
      "https://masteroverwatch.com/profile/pc/eu/Foo-1234/update" := by
  refine ⟨rfl, rfl, rfl, rfl, ?_⟩
  decide

/-- C2 counterexample: with every GET failing, `get_user_page` does not
return absent; it hands the absent body to the parser (a parse attempt
on an absent body is in its trace) and raises ValueError. -/
theorem user_page_parses_absent_body_cex :
    (get_user_page envAbsent 0 [] "Foo" "eu" "" 300).1 =
      Except.error (PyExc.valueError "can only parse strings") ∧
    Event.parseAttempt none ∈ (get_user_page envAbsent 0 [] "Foo" "eu" "" 300).2.1 := by
  refine ⟨rfl, ?_⟩
  rw [show (get_user_page envAbsent 0 [] "Foo" "eu" "" 300).2.1 =
    [Event.profileReq "Foo" "eu" "",
     Event.fetchBody "https://masteroverwatch.com/profile/pc/eu/Foo" 300,
     Event.netGet "https://masteroverwatch.com/profile/pc/eu/Foo",
     Event.parseAttempt none] from rfl]
  simp

/-- C2 (amended): when the cache-aside fetch is absent,
`get_blizzard_page` returns absent immediately and attempts no parse,
but `get_user_page` hands the absent body to the parser and raises
ValueError instead of returning absent. -/
theorem document_loader_absent_behaviour (env : Env) (now : Nat) (c : Cache)
    (btag reg extra : String) (ct : Nat)
    (hb : (get_page_body env now c (blizzBuiltUrl btag reg) 300).1 = none)
    (hp : (get_page_body env now c (pageBuiltUrl btag reg extra) ct).1 = none) :
    (get_blizzard_page env now c btag reg).1 = Except.ok none ∧
    (∀ ob : Option String,
      Event.parseAttempt ob ∉ (get_blizzard_page env now c btag reg).2.1) ∧
    (get_user_page env now c btag reg extra ct).1 =
      Except.error (PyExc.valueError "can only parse strings") ∧
    Event.parseAttempt none ∈ (get_user_page env now c btag reg extra ct).2.1 := by
  refine ⟨?_, ?_, ?_, ?_⟩
  · rw [blizz_run_none env now c btag reg hb]
  · intro ob hm
    rw [blizz_run_none env now c btag reg hb] at hm
    rcases List.mem_cons.mp hm with h1 | h2
    · exact Event.noConfusion h1
    · rcases get_page_body_trace env now c (blizzBuiltUrl btag reg) 300 with h | h <;>
        rw [h] at h2 <;> simp at h2
  · rw [user_page_run, hp]
    rfl
  · rw [user_page_run, hp]
    simp

/-- C2 witness: the amended behaviour at a concrete world where every
GET fails. -/
theorem document_loader_absent_behaviour_witness :
    (get_page_body envAbsent 0 [] (blizzBuiltUrl "Foo" "eu") 300).1 = none ∧
    (get_page_body envAbsent 0 [] (pageBuiltUrl "Foo" "eu" "") 300).1 = none ∧
    ((get_blizzard_page envAbsent 0 [] "Foo" "eu").1 = Except.ok none ∧
     (∀ ob : Option String,
       Event.parseAttempt ob ∉ (get_blizzard_page envAbsent 0 [] "Foo" "eu").2.1) ∧
     (get_user_page envAbsent 0 [] "Foo" "eu" "" 300).1 =
       Except.error (PyExc.valueError "can only parse strings") ∧
     Event.parseAttempt none ∈ (get_user_page envAbsent 0 [] "Foo" "eu" "" 300).2.1) :=
  ⟨rfl, rfl, document_loader_absent_behaviour envAbsent 0 [] "Foo" "eu" "" 300 rfl rfl⟩

/-- C3 counterexample: region eu passes the existence probe and the
update step, the full-profile fetch fails, and `region_helper` raises
the parser error instead of returning a `(document_or_absent, region)`
pair. -/
theorem region_helper_step_three_raises_cex :
    (get_blizzard_page envStepThreeFails 0 [] "Foo" "eu").1 =
      Except.ok (some (Document.mk "blizzard-page")) ∧
    (update_user envStepThreeFails 0
      (get_blizzard_page envStepThreeFails 0 [] "Foo" "eu").2.2 "Foo" "eu").1 =
      Except.ok true ∧
    (region_helper envStepThreeFails 0 [] "Foo" (some "eu") "").1 =
      Except.error (PyExc.valueError "can only parse strings") :=
  ⟨rfl, rfl, rfl⟩

/-- C3 (amended): a candidate region that passes the existence probe and
the update step is the last region the resolver touches (exactly one
probe in the trace): when the full-profile fetch yields a body the
resolver returns `(document, region)`, and when it fails the resolver
propagates the parser error rather than returning a pair or continuing
to further regions. -/
theorem region_helper_finishes_at_passing_region (env : Env) (now : Nat) (c : Cache)
    (btag r extra : String) (d : Document)
    (h1 : (get_blizzard_page env now c btag r).1 = Except.ok (some d))
    (h2 : (update_user env now (get_blizzard_page env now c btag r).2.2 btag r).1 =
      Except.ok true) :
    probeRegs ((region_helper env now c btag (some r) extra).2.1) = [r] ∧
    (∀ bd, (get_user_page env now
        (update_user env now (get_blizzard_page env now c btag r).2.2 btag r).2.2
        btag r extra 300).1 = Except.ok bd →
      (region_helper env now c btag (some r) extra).1 = Except.ok (some bd, some r)) ∧
    (∀ err, (get_user_page env now
        (update_user env now (get_blizzard_page env now c btag r).2.2 btag r).2.2
        btag r extra 300).1 = Except.error err →
      (region_helper env now c btag (some r) extra).1 = Except.error err) := by
  have hdef : region_helper env now c btag (some r) extra =
      region_loop env now btag extra [r] c := rfl
  refine ⟨?_, ?_, ?_⟩
  · rw [hdef, region_loop_cons]
    rcases hpg : (get_user_page env now
        (update_user env now (get_blizzard_page env now c btag r).2.2 btag r).2.2
        btag r extra 300).1 with perr | bd <;>
      simp only [h1, h2, hpg] <;>
      rw [probeRegs_append, probeRegs_append, (blizz_regs env now c btag r).1,
        (update_regs env now (get_blizzard_page env now c btag r).2.2 btag r).1,
        (user_page_regs env now
          (update_user env now (get_blizzard_page env now c btag r).2.2 btag r).2.2
          btag r extra 300).1] <;>
      rfl
  · intro bd hpg
    rw [hdef, region_loop_cons]
    simp only [h1, h2, hpg]
  · intro err hpg
    rw [hdef, region_loop_cons]
    simp only [h1, h2, hpg]

/-- C3 witness: the amended behaviour at a concrete world where the
battletag passes every step in region us. -/
theorem region_helper_finishes_at_passing_region_witness :
    (get_blizzard_page envUsWins 0 [] "Foo" "us").1 =
      Except.ok (some (Document.mk "blizzard-page")) ∧
    (update_user envUsWins 0
      (get_blizzard_page envUsWins 0 [] "Foo" "us").2.2 "Foo" "us").1 = Except.ok true ∧
    (probeRegs ((region_helper envUsWins 0 [] "Foo" (some "us") "").2.1) = ["us"] ∧
     (∀ bd, (get_user_page envUsWins 0
         (update_user envUsWins 0
           (get_blizzard_page envUsWins 0 [] "Foo" "us").2.2 "Foo" "us").2.2
         "Foo" "us" "" 300).1 = Except.ok bd →
       (region_helper envUsWins 0 [] "Foo" (some "us") "").1 =
         Except.ok (some bd, some "us")) ∧
     (∀ err, (get_user_page envUsWins 0
         (update_user envUsWins 0
           (get_blizzard_page envUsWins 0 [] "Foo" "us").2.2 "Foo" "us").2.2
         "Foo" "us" "" 300).1 = Except.error err →
       (region_helper envUsWins 0 [] "Foo" (some "us") "").1 = Except.error err)) :=
  ⟨rfl, rfl,
   region_helper_finishes_at_passing_region envUsWins 0 [] "Foo" "us" ""
     (Document.mk "blizzard-page") rfl rfl⟩

/-- C4 counterexample: a fetched update-endpoint body that decodes to a
JSON object with no status field makes `update_user` raise KeyError;
it does not return Updated. -/
theorem update_user_other_shape_raises_cex :
    (update_user envUpdateShape 0 [] "Foo" "eu").1 =
      Except.error (PyExc.keyError "status") ∧
    (update_user envUpdateShape 0 [] "Foo" "eu").1 ≠ Except.ok true := by
  refine ⟨rfl, ?_⟩
  intro h
  exact Except.noConfusion
    ((show (update_user envUpdateShape 0 [] "Foo" "eu").1 =
      Except.error (PyExc.keyError "status") from rfl).symm.trans h)

/-- C4 (amended): for a fetched body that decodes to JSON, `update_user`
returns NotFound exactly when the payload subscripts to status equal to
the string error and message equal to the exact not-found literal, and
returns Updated exactly when the status lookup succeeds with a value
other than the string error, or the status is error and the message
lookup succeeds with a value other than the literal; for payloads where
the needed lookups raise, neither value is returned. -/
theorem update_user_json_outcome (env : Env) (now : Nat) (c : Cache) (btag reg s : String)
    (data : Json)
    (hb : (get_page_body env now c (updateBuiltUrl btag reg) 300).1 = some s)
    (hj : env.loads s = some data) :
    ((update_user env now c btag reg).1 = Except.ok false ↔
      data.getItem "status" = Except.ok (Json.str "error") ∧
      data.getItem "message" = Except.ok (Json.str moNotFoundMessage)) ∧
    ((update_user env now c btag reg).1 = Except.ok true ↔
      ((∃ st, data.getItem "status" = Except.ok st ∧ jsonEqStr st "error" = false) ∨
       (data.getItem "status" = Except.ok (Json.str "error") ∧
        ∃ m, data.getItem "message" = Except.ok m ∧
          jsonEqStr m moNotFoundMessage = false))) := by
  have hu : (update_user env now c btag reg).1 =
      (match data.getItem "status" with
       | Except.error e => Except.error e
       | Except.ok st =>
         if jsonEqStr st "error" = true then
           match data.getItem "message" with
           | Except.error e => Except.error e
           | Except.ok m =>
             if jsonEqStr m moNotFoundMessage = true then Except.ok false
             else Except.ok true
         else Except.ok true) := by
    rw [update_run, hb]
    show updateJsonResult env (some s) = _
    unfold updateJsonResult
    dsimp only
    rw [hj]
  rcases hst : data.getItem "status" with e1 | st
  · simp only [hst] at hu
    rw [hu]
    simp [hst]
  · simp only [hst] at hu
    rcases hes : jsonEqStr st "error" with _ | _
    · have hne : st ≠ Json.str "error" := by
        intro hh
        rw [hh] at hes
        simp [jsonEqStr] at hes
      rw [if_neg (by rw [hes]; exact Bool.false_ne_true)] at hu
      rw [hu]
      simp [hst, hes, hne]
    · have hseq : st = Json.str "error" := (jsonEqStr_true_iff st "error").mp hes
      subst hseq
      rw [if_pos hes] at hu
      rcases hm : data.getItem "message" with e2 | m
      · simp only [hm] at hu
        rw [hu]
        simp [hst, hm, jsonEqStr]
      · simp only [hm] at hu
        rcases hmn : jsonEqStr m moNotFoundMessage with _ | _
        · have hnem : m ≠ Json.str moNotFoundMessage := by
            intro hh
            rw [hh] at hmn
            simp [jsonEqStr] at hmn
          rw [if_neg (by rw [hmn]; exact Bool.false_ne_true)] at hu
          rw [hu]
          simp [hst, hm, hmn, hnem, jsonEqStr]
          exact hmn
        · have hmeq : m = Json.str moNotFoundMessage :=
            (jsonEqStr_true_iff m moNotFoundMessage).mp hmn
          subst hmeq
          rw [if_pos hmn] at hu
          rw [hu]
          simp [hst, hm, jsonEqStr]

/-- C4 witness: the amended characterisation at a concrete world whose
update endpoint answers with a JSON object whose status is ok. -/
theorem update_user_json_outcome_witness :
    (get_page_body envStepThreeFails 0 [] (updateBuiltUrl "Foo" "eu") 300).1 =
      some "update-ok-body" ∧
    envStepThreeFails.loads "update-ok-body" =
      some (Json.obj [("status", Json.str "ok")]) ∧
    (((update_user envStepThreeFails 0 [] "Foo" "eu").1 = Except.ok false ↔
       (Json.obj [("status", Json.str "ok")]).getItem "status" =
         Except.ok (Json.str "error") ∧
       (Json.obj [("status", Json.str "ok")]).getItem "message" =
         Except.ok (Json.str moNotFoundMessage)) ∧
     ((update_user envStepThreeFails 0 [] "Foo" "eu").1 = Except.ok true ↔
       ((∃ st, (Json.obj [("status", Json.str "ok")]).getItem "status" = Except.ok st ∧
           jsonEqStr st "error" = false) ∨
        ((Json.obj [("status", Json.str "ok")]).getItem "status" =
           Except.ok (Json.str "error") ∧
         ∃ m, (Json.obj [("status", Json.str "ok")]).getItem "message" = Except.ok m ∧
           jsonEqStr m moNotFoundMessage = false)))) :=
  ⟨rfl, rfl,
   update_user_json_outcome envStepThreeFails 0 [] "Foo" "eu" "update-ok-body"
     (Json.obj [("status", Json.str "ok")]) rfl rfl⟩

/-- C5: when the fetch of the update endpoint is absent, `update_user`
raises TypeError; when the fetched body is not valid JSON, it raises the
JSON decode error; in both situations it returns no boolean at all, in
particular never NotFound. -/
theorem update_user_fetch_failure_raises (env : Env) (now : Nat) (c : Cache)
    (btag reg : String) :
    ((get_page_body env now c (updateBuiltUrl btag reg) 300).1 = none →
      (update_user env now c btag reg).1 = Except.error
        (PyExc.typeError "the JSON object must be str, bytes or bytearray, not NoneType")) ∧
    (∀ s, (get_page_body env now c (updateBuiltUrl btag reg) 300).1 = some s →
      env.loads s = none →
      (update_user env now c btag reg).1 = Except.error PyExc.jsonDecodeError) ∧
    (∀ b : Bool,
      ((get_page_body env now c (updateBuiltUrl btag reg) 300).1 = none ∨
       (∃ s, (get_page_body env now c (updateBuiltUrl btag reg) 300).1 = some s ∧
         env.loads s = none)) →
      (update_user env now c btag reg).1 ≠ Except.ok b) := by
  have hnone : (get_page_body env now c (updateBuiltUrl btag reg) 300).1 = none →
      (update_user env now c btag reg).1 = Except.error
        (PyExc.typeError "the JSON object must be str, bytes or bytearray, not NoneType") := by
    intro hb
    rw [update_run, hb]
    rfl
  have hbad : ∀ s, (get_page_body env now c (updateBuiltUrl btag reg) 300).1 = some s →
      env.loads s = none →
      (update_user env now c btag reg).1 = Except.error PyExc.jsonDecodeError := by
    intro s hb hj
    rw [update_run, hb]
    show updateJsonResult env (some s) = _
    unfold updateJsonResult
    dsimp only
    rw [hj]
  refine ⟨hnone, hbad, ?_⟩
  intro b hcase heq
  rcases hcase with hb | ⟨s, hb, hj⟩
  · rw [hnone hb] at heq
    exact Except.noConfusion heq
  · rw [hbad s hb hj] at heq
    exact Except.noConfusion heq

/-- C5 witness: the failure propagation at a concrete world where every
GET fails. -/
theorem update_user_fetch_failure_raises_witness :
    ((get_page_body envAbsent 0 [] (updateBuiltUrl "Foo" "eu") 300).1 = none →
      (update_user envAbsent 0 [] "Foo" "eu").1 = Except.error
        (PyExc.typeError "the JSON object must be str, bytes or bytearray, not NoneType")) ∧
    (∀ s, (get_page_body envAbsent 0 [] (updateBuiltUrl "Foo" "eu") 300).1 = some s →
      envAbsent.loads s = none →
      (update_user envAbsent 0 [] "Foo" "eu").1 = Except.error PyExc.jsonDecodeError) ∧
    (∀ b : Bool,
      ((get_page_body envAbsent 0 [] (updateBuiltUrl "Foo" "eu") 300).1 = none ∨
       (∃ s, (get_page_body envAbsent 0 [] (updateBuiltUrl "Foo" "eu") 300).1 = some s ∧
         envAbsent.loads s = none)) →
      (update_user envAbsent 0 [] "Foo" "eu").1 ≠ Except.ok b) :=
  update_user_fetch_failure_raises envAbsent 0 [] "Foo" "eu"

/-- C6: with an explicit region, every existence probe of the run is for
that region; with no region, the probed regions are a prefix of the
ordered list eu, us, kr; and a run returning a document for a region
probed exactly the regions up to and including that one and issued a
full-profile fetch only for it. -/
theorem region_helper_probe_order (env : Env) (now : Nat) (c : Cache)
    (btag extra : String) :
    (∀ r x rr, Event.probe x rr ∈ (region_helper env now c btag (some r) extra).2.1 →
      rr = r) ∧
    (∃ k, probeRegs ((region_helper env now c btag none extra).2.1) =
      ["eu", "us", "kr"].take k) ∧
    (∀ (d : Document) (r : String),
      (region_helper env now c btag none extra).1 = Except.ok (some d, some r) →
      ∃ k, ["eu", "us", "kr"].get? k = some r ∧
        probeRegs ((region_helper env now c btag none extra).2.1) =
          ["eu", "us", "kr"].take (k + 1) ∧
        profileRegs ((region_helper env now c btag none extra).2.1) = [r]) := by
  refine ⟨?_, ?_, ?_⟩
  · intro r x rr hm
    obtain ⟨k, hk⟩ := region_loop_probe_prefix env now btag extra [r] c
    have hmem := mem_probeRegs x rr _ hm
    have hk2 : probeRegs ((region_helper env now c btag (some r) extra).2.1) =
        List.take k [r] := hk
    rw [hk2] at hmem
    have := List.take_subset k [r] hmem
    exact List.mem_singleton.mp this
  · exact region_loop_probe_prefix env now btag extra ["eu", "us", "kr"] c
  · intro d r h
    exact region_loop_success env now btag extra ["eu", "us", "kr"] c d r h

/-- C6 witness: the probe-order facts at a concrete world where eu fails
the probe and us passes every step. -/
theorem region_helper_probe_order_witness :
    (∀ r x rr, Event.probe x rr ∈ (region_helper envUsWins 0 [] "Foo" (some r) "").2.1 →
      rr = r) ∧
    (∃ k, probeRegs ((region_helper envUsWins 0 [] "Foo" none "").2.1) =
      ["eu", "us", "kr"].take k) ∧
    (∀ (d : Document) (r : String),
      (region_helper envUsWins 0 [] "Foo" none "").1 = Except.ok (some d, some r) →
      ∃ k, ["eu", "us", "kr"].get? k = some r ∧
        probeRegs ((region_helper envUsWins 0 [] "Foo" none "").2.1) =
          ["eu", "us", "kr"].take (k + 1) ∧
        profileRegs ((region_helper envUsWins 0 [] "Foo" none "").2.1) = [r]) :=
  region_helper_probe_order envUsWins 0 [] "Foo" ""

/-- C7: if every candidate region of the default list is skipped at the
existence probe (the transport serves no probe page and the starting
cache is transport-consistent for the probe URL) or at the update step
(the transport serves the exact not-found payload for the update URL,
the starting cache being transport-consistent for it), the resolver
returns the absent pair; if every existence probe fails outright, it
additionally made exactly the three existence probes eu, us, kr and no
update call.  The consistency premises hold for the empty cache and any
cache whose entries were produced by the same transport. -/
theorem region_helper_exhaustion (env : Env) (now : Nat) (c : Cache)
    (btag extra : String) :
    ((∀ r ∈ ["eu", "us", "kr"],
        (env.fetch (blizzBuiltUrl btag r) = none ∧
         cacheConsistent env now (blizzBuiltUrl btag r) c) ∨
        ((∃ s, env.fetch (updateBuiltUrl btag r) = some s ∧
            env.loads s = some (moErrorPayload moNotFoundMessage)) ∧
         cacheConsistent env now (updateBuiltUrl btag r) c)) →
      (region_helper env now c btag none extra).1 = Except.ok (none, none)) ∧
    ((∀ r ∈ ["eu", "us", "kr"],
        env.fetch (blizzBuiltUrl btag r) = none ∧
        cacheConsistent env now (blizzBuiltUrl btag r) c) →
      (region_helper env now c btag none extra).1 = Except.ok (none, none) ∧
      probeRegs ((region_helper env now c btag none extra).2.1) = ["eu", "us", "kr"] ∧
      updateRegs ((region_helper env now c btag none extra).2.1) = []) := by
  constructor
  · intro h
    exact region_loop_skip_all env now btag extra ["eu", "us", "kr"] c h
  · intro h
    exact region_loop_all_probe_fail env now btag extra ["eu", "us", "kr"] c h

/-- C7 witness: the second part discharged at a world where every GET
fails (three probes, zero updates, empty starting cache), and the first
part additionally exercised at a world where eu is skipped at the
update step (exact not-found payload) and us, kr at the probe. -/
theorem region_helper_exhaustion_witness :
    ((∀ r ∈ ["eu", "us", "kr"],
        envAbsent.fetch (blizzBuiltUrl "Foo" r) = none ∧
        cacheConsistent envAbsent 0 (blizzBuiltUrl "Foo" r) []) ∧
     ((region_helper envAbsent 0 [] "Foo" none "").1 = Except.ok (none, none) ∧
      probeRegs ((region_helper envAbsent 0 [] "Foo" none "").2.1) =
        ["eu", "us", "kr"] ∧
      updateRegs ((region_helper envAbsent 0 [] "Foo" none "").2.1) = [])) ∧
    (region_helper envNotFound 0 [] "Foo" none "").1 = Except.ok (none, none) := by
  have hpre : ∀ r ∈ ["eu", "us", "kr"],
      envAbsent.fetch (blizzBuiltUrl "Foo" r) = none ∧
      cacheConsistent envAbsent 0 (blizzBuiltUrl "Foo" r) [] :=
    fun r _ => ⟨rfl, Or.inl rfl⟩
  refine ⟨⟨hpre, (region_helper_exhaustion envAbsent 0 [] "Foo" "").2 hpre⟩, ?_⟩
  refine (region_helper_exhaustion envNotFound 0 [] "Foo" "").1 ?_
  intro r hr
  simp only [List.mem_cons, List.not_mem_nil, or_false] at hr
  rcases hr with rfl | rfl | rfl
  · exact Or.inr ⟨⟨"nf-body", rfl, rfl⟩, Or.inl rfl⟩
  · exact Or.inl ⟨rfl, Or.inl rfl⟩
  · exact Or.inl ⟨rfl, Or.inl rfl⟩

/-- C8: in every run of the resolver (explicit region or default list),
a region whose update endpoint serves a body decoding to the exact
not-found payload, the starting cache being transport-consistent for
that update URL, never receives a full-profile fetch; and a region
whose update endpoint serves an error payload with any other message
receives the full-profile fetch whenever its update call was made. -/
theorem region_helper_update_gates_profile_fetch (env : Env) (now : Nat) (c : Cache)
    (btag : String) (regOpt : Option String) (extra r m : String) :
    ((∃ s, env.fetch (updateBuiltUrl btag r) = some s ∧
        env.loads s = some (moErrorPayload moNotFoundMessage)) →
      cacheConsistent env now (updateBuiltUrl btag r) c →
      Event.profileReq btag r extra ∉ (region_helper env now c btag regOpt extra).2.1) ∧
    (m ≠ moNotFoundMessage →
      (∃ s, env.fetch (updateBuiltUrl btag r) = some s ∧
        env.loads s = some (moErrorPayload m)) →
      cacheConsistent env now (updateBuiltUrl btag r) c →
      Event.updateReq btag r ∈ (region_helper env now c btag regOpt extra).2.1 →
      Event.profileReq btag r extra ∈ (region_helper env now c btag regOpt extra).2.1) := by
  constructor
  · rintro ⟨s, hf, hl⟩ hcc
    cases regOpt with
    | none =>
      exact region_loop_notfound_no_profile env now btag extra r s hf hl
        ["eu", "us", "kr"] c hcc
    | some rq =>
      exact region_loop_notfound_no_profile env now btag extra r s hf hl [rq] c hcc
  · rintro hm ⟨s, hf, hl⟩ hcc hmem
    cases regOpt with
    | none =>
      exact region_loop_update_then_profile env now btag extra r s m hf hl hm
        ["eu", "us", "kr"] c hcc hmem
    | some rq =>
      exact region_loop_update_then_profile env now btag extra r s m hf hl hm
        [rq] c hcc hmem

/-- C8 witness: the not-found half discharged at a world whose update
endpoint for eu serves the exact not-found payload (no profile fetch in
that run), and the other-message half at a world whose update endpoint
for eu serves a rate-limited error (its run contains the update call
and the profile fetch). -/
theorem region_helper_update_gates_profile_fetch_witness :
    (envNotFound.fetch (updateBuiltUrl "Foo" "eu") = some "nf-body" ∧
     envNotFound.loads "nf-body" = some (moErrorPayload moNotFoundMessage) ∧
     cacheConsistent envNotFound 0 (updateBuiltUrl "Foo" "eu") [] ∧
     Event.profileReq "Foo" "eu" "" ∉
       (region_helper envNotFound 0 [] "Foo" none "").2.1) ∧
    (envRateLimited.fetch (updateBuiltUrl "Foo" "eu") = some "rl-body" ∧
     envRateLimited.loads "rl-body" = some (moErrorPayload "rate limited") ∧
     "rate limited" ≠ moNotFoundMessage ∧
     cacheConsistent envRateLimited 0 (updateBuiltUrl "Foo" "eu") [] ∧
     Event.updateReq "Foo" "eu" ∈
       (region_helper envRateLimited 0 [] "Foo" none "").2.1 ∧
     Event.profileReq "Foo" "eu" "" ∈
       (region_helper envRateLimited 0 [] "Foo" none "").2.1) := by
  have hne : "rate limited" ≠ moNotFoundMessage := by decide
  have hmem : Event.updateReq "Foo" "eu" ∈
      (region_helper envRateLimited 0 [] "Foo" none "").2.1 := by decide
  refine ⟨⟨rfl, rfl, Or.inl rfl, ?_⟩, rfl, rfl, hne, Or.inl rfl, hmem, ?_⟩
  · exact (region_helper_update_gates_profile_fetch envNotFound 0 [] "Foo" none ""
      "eu" "x").1 ⟨"nf-body", rfl, rfl⟩ (Or.inl rfl)
  · exact (region_helper_update_gates_profile_fetch envRateLimited 0 [] "Foo" none ""
      "eu" "rate limited").2 hne ⟨"rl-body", rfl, rfl⟩ (Or.inl rfl) hmem

/-- C9: on a cache miss with a failed GET, `get_page_body` returns
absent, leaves the cache exactly as it was, and the immediately
following fetch of the same URL performs a fresh network GET (the
with_cache collaborator is modelled from the spec, owapi/util.py not
being part of the sources). -/
theorem failed_fetch_not_cached (env : Env) (now : Nat) (c : Cache) (url : String)
    (ttl : Nat) (hm : cacheGet c url now = none) (hf : env.fetch url = none) :
    get_page_body env now c url ttl =
      (none, [Event.fetchBody url ttl, Event.netGet url], c) ∧
    get_page_body env now ((get_page_body env now c url ttl).2.2) url ttl =
      (none, [Event.fetchBody url ttl, Event.netGet url], c) := by
  have h1 := get_page_body_fail env now c url ttl hm hf
  refine ⟨h1, ?_⟩
  rw [h1]
  exact h1

/-- C9 witness: the non-caching of a failed fetch at a concrete world
where every GET fails. -/
theorem failed_fetch_not_cached_witness :
    cacheGet [] "https://example.test/x" 0 = none ∧
    envAbsent.fetch "https://example.test/x" = none ∧
    (get_page_body envAbsent 0 [] "https://example.test/x" 7 =
      (none, [Event.fetchBody "https://example.test/x" 7,
              Event.netGet "https://example.test/x"], []) ∧
     get_page_body envAbsent 0
       ((get_page_body envAbsent 0 [] "https://example.test/x" 7).2.2)
       "https://example.test/x" 7 =
      (none, [Event.fetchBody "https://example.test/x" 7,
              Event.netGet "https://example.test/x"], [])) :=
  ⟨rfl, rfl, failed_fetch_not_cached envAbsent 0 [] "https://example.test/x" 7 rfl rfl⟩

/-- C10: the cache_time keyword handed to the blizzard URL template is
unused (the built URL is the same with or without it), the probe fetch
is issued with the default cache time 300, and a successful probe body
is stored with expiry now plus 300. -/
theorem blizzard_probe_cache_ttl (env : Env) (now : Nat) (c : Cache)
    (btag reg : String) :
    pyFormat B_PAGE_URL
        [("region", reg), ("btag", replaceHash btag), ("cache_time", "0")] =
      pyFormat B_PAGE_URL [("region", reg), ("btag", replaceHash btag)] ∧
    Event.fetchBody (blizzBuiltUrl btag reg) 300 ∈
      (get_blizzard_page env now c btag reg).2.1 ∧
    (cacheGet c (blizzBuiltUrl btag reg) now = none →
      ∀ bd, env.fetch (blizzBuiltUrl btag reg) = some bd →
        (get_blizzard_page env now c btag reg).2.2 =
          (blizzBuiltUrl btag reg, bd, now + 300) :: c) := by
  refine ⟨?_, ?_, ?_⟩
  · rw [fmt_blizz, fmt_blizz_plain]
  · rcases hpb : (get_page_body env now c (blizzBuiltUrl btag reg) 300).1 with _ | bd
    · rw [blizz_run_none env now c btag reg hpb]
      rcases get_page_body_trace env now c (blizzBuiltUrl btag reg) 300 with h | h <;>
        rw [h] <;> simp
    · rw [blizz_run_some env now c btag reg bd hpb]
      rcases get_page_body_trace env now c (blizzBuiltUrl btag reg) 300 with h | h <;>
        rw [h] <;> simp
  · intro hcm bd hf
    have hnet := get_page_body_net env now c (blizzBuiltUrl btag reg) 300 bd hcm hf
    have hpb : (get_page_body env now c (blizzBuiltUrl btag reg) 300).1 = some bd := by
      rw [hnet]
    rw [blizz_run_some env now c btag reg bd hpb]
    rw [hnet]
    rfl

/-- C10 witness: the default probe cache time at a concrete world where
the blizzard page for us is available. -/
theorem blizzard_probe_cache_ttl_witness :
    pyFormat B_PAGE_URL
        [("region", "us"), ("btag", replaceHash "Foo"), ("cache_time", "0")] =
      pyFormat B_PAGE_URL [("region", "us"), ("btag", replaceHash "Foo")] ∧
    Event.fetchBody (blizzBuiltUrl "Foo" "us") 300 ∈
      (get_blizzard_page envUsWins 0 [] "Foo" "us").2.1 ∧
    (cacheGet [] (blizzBuiltUrl "Foo" "us") 0 = none →
      ∀ bd, envUsWins.fetch (blizzBuiltUrl "Foo" "us") = some bd →
        (get_blizzard_page envUsWins 0 [] "Foo" "us").2.2 =
          (blizzBuiltUrl "Foo" "us", bd, 0 + 300) :: []) :=
  blizzard_probe_cache_ttl envUsWins 0 [] "Foo" "us"
